import Mathlib

/-!
Verification of the KYCC temporal-safe feature/scoring/versioning engine.

The definitions below are a shallow embedding of the Python sources under
`backend/app`: pure functions become Lean functions over `ℚ`/`ℤ`/`String`,
database tables become lists of records (list order = primary-key order),
`datetime.utcnow()` becomes an explicit `now` parameter, and raised Python
exceptions become `Except` values.  External numeric routines with no exact
rational counterpart (`math.log10`, `numpy.mean`/`std`, `strftime` month
keys, the sigmoid of the ML path) are taken as function parameters: every
claim proved here holds for all instantiations of those parameters.
-/

namespace KYCC

/-- Python `int(x)` applied to a float/rational: truncation toward zero. -/
def ratTrunc (q : ℚ) : ℤ :=
  if 0 ≤ q then ⌊q⌋ else ⌈q⌉

/-! ## Scorecard engine (`app/scorecard/scorecard_engine.py`) -/

/-- A feature mapping as passed to the engine: a key can be absent, or
present with a Python `None` value (modelled as `none`). -/
abbrev Features := List (String × Option ℚ)

/-- First-match association-list lookup (Python dict keys are unique). -/
def flookup (f : Features) (name : String) : Option (Option ℚ) :=
  (f.find? (fun p => p.1 == name)).map Prod.snd

/-- One entry of the `feature_scaling` config. -/
structure ScalingEntry where
  method : String
  max_value : ℚ
deriving Repr, DecidableEq

/-- Weight configuration consumed by the engine
(`base_score`, `max_score`, `weights`, `feature_scaling`). -/
structure EngineConfig where
  version : String
  base_score : ℚ
  max_score : ℚ
  weights : List (String × ℚ)
  feature_scaling : List (String × ScalingEntry)
deriving Repr, DecidableEq

/-- The fixed naming convention for boolean-coded features
(`scorecard_engine.py` line 95). -/
def booleanFeatures : List String :=
  ["kyc_verified", "has_tax_id", "recent_activity_flag"]

/-- `ScorecardEngine._compute_feature_contribution`.  `log10` abstracts
`math.log10`. -/
def computeFeatureContribution (log10 : ℚ → ℚ) (cfg : EngineConfig)
    (name : String) (value : ℚ) (weight : ℚ) : ℚ :=
  if name ∈ booleanFeatures then
    if value ≠ 0 then weight else 0
  else
    let sc := ((cfg.feature_scaling.find? (fun p => p.1 == name)).map Prod.snd).getD
      ⟨"linear", 1⟩
    if sc.method = "cap" then
      min value sc.max_value / sc.max_value * weight
    else if sc.method = "log_scale" then
      if value ≤ 0 then 0
      else min (log10 (value + 1) / log10 (sc.max_value + 1)) 1 * weight
    else
      (if value > 1 then min (value / 100) 1 else value) * weight

/-- Contribution and missing flag for one weighted feature
(the body of the loop in `compute_scorecard_score`). -/
def featureResult (log10 : ℚ → ℚ) (cfg : EngineConfig) (features : Features)
    (p : String × ℚ) : ℚ × Bool :=
  match flookup features p.1 with
  | none => (0, true)
  | some none => (0, true)
  | some (some v) => (computeFeatureContribution log10 cfg p.1 v p.2, false)

/-- Return value of `compute_scorecard_score`.  `computed_at` is the
`datetime.utcnow().isoformat()` timestamp placed in the output dict. -/
structure ScoreOutput where
  score : ℚ
  raw_score : ℚ
  contributions : List (String × ℚ)
  missing_features : List String
  scorecard_version : String
  computed_at : ℕ
deriving Repr, DecidableEq

/-- `ScorecardEngine.compute_scorecard_score`:  contributions accumulate in
weight order (missing/null features contribute 0 and are listed),
`raw_score = base_score + Σ contributions`, final score clamped to
`[base_score, max_score]`. -/
def computeScorecardScore (log10 : ℚ → ℚ) (cfg : EngineConfig)
    (features : Features) (now : ℕ) : ScoreOutput :=
  let results := cfg.weights.map (fun p => (p.1, featureResult log10 cfg features p))
  let contributions := results.map (fun r => (r.1, r.2.1))
  let missing := (results.filter (fun r => r.2.2)).map (fun r => r.1)
  let total := (contributions.map (fun c => c.2)).sum
  let raw := cfg.base_score + total
  { score := max cfg.base_score (min cfg.max_score raw)
    raw_score := raw
    contributions := contributions
    missing_features := missing
    scorecard_version := cfg.version
    computed_at := now }

/-! ## Scorecard version registry (`app/services/scorecard_version_service.py`,
model `ScorecardVersion` in `app/models/models.py`) -/

/-- Why a candidate version was persisted as failed (the formatted
`reason` strings of `create_version_from_ml`, kept structured). -/
inductive FailReason where
  | belowMinAuc (auc threshold : ℚ)
  | belowImprovement (improvement threshold : ℚ)
deriving Repr, DecidableEq

/-- The `notes` column: caller-supplied text, the default
"ML-refined from {version}" text, or "FAILED: {reason}". -/
inductive VersionNote where
  | user (s : String)
  | mlRefinedFrom (v : String)
  | failedNote (reason : FailReason)
deriving Repr, DecidableEq

/-- One `scorecard_versions` row (fields touched by the service). -/
structure SCVersion where
  version : String
  status : String
  weights : List (String × ℚ)
  base_score : ℤ
  max_score : ℤ
  scaling_config : Option (List (String × ScalingEntry))
  source : String
  ml_model_id : Option String
  ml_auc : Option ℚ
  ml_f1 : Option ℚ
  activated_at : Option ℕ
  retired_at : Option ℕ
  notes : VersionNote
deriving Repr, DecidableEq

/-- The registry table: list order is primary-key (insertion) order. -/
abbrev RegistryState := List SCVersion

/-- Config-dict shape shared by `ScorecardVersion.to_config_dict()` and
`INITIAL_SCORECARD_V1` (only the keys `create_version_from_ml` reads). -/
structure ConfigDict where
  version : String
  base_score : ℤ
  max_score : ℤ
  weights : List (String × ℚ)
  feature_scaling : Option (List (String × ScalingEntry))
deriving Repr, DecidableEq

/-- Weights of `INITIAL_SCORECARD_V1` (`app/scorecard/scorecard_config.py`). -/
def initialWeights : List (String × ℚ) :=
  [("kyc_verified", 15), ("has_tax_id", 10), ("contact_completeness", 5),
   ("company_age_years", 10), ("party_type_score", 10),
   ("transaction_count_6m", 20), ("avg_transaction_amount", 15),
   ("recent_activity_flag", 25), ("transaction_regularity_score", 15),
   ("network_size", 10), ("direct_counterparty_count", 10),
   ("network_balance_ratio", 10), ("network_depth_downstream", 10)]

/-- `feature_scaling` of `INITIAL_SCORECARD_V1`. -/
def initialScaling : List (String × ScalingEntry) :=
  [("company_age_years", ⟨"cap", 5⟩), ("transaction_count_6m", ⟨"cap", 50⟩),
   ("avg_transaction_amount", ⟨"log_scale", 100000⟩), ("network_size", ⟨"cap", 20⟩),
   ("direct_counterparty_count", ⟨"cap", 10⟩), ("network_depth_downstream", ⟨"cap", 5⟩)]

/-- `INITIAL_SCORECARD_V1` as a config dict. -/
def initialConfigDict : ConfigDict :=
  { version := "1.0", base_score := 300, max_score := 900,
    weights := initialWeights, feature_scaling := some initialScaling }

/-- `ScorecardVersion.to_config_dict()` (`scaling_config or {}`). -/
def toConfigDict (v : SCVersion) : ConfigDict :=
  { version := v.version, base_score := v.base_score, max_score := v.max_score,
    weights := v.weights, feature_scaling := some (v.scaling_config.getD []) }

/-- `query(...).filter(status == 'active').first()`. -/
def findActive (st : RegistryState) : Option SCVersion :=
  st.find? (fun v => v.status == "active")

/-- `ScorecardVersionService.get_active_scorecard`: active version config,
or the bootstrap expert config when none is active. -/
def getActiveScorecard (st : RegistryState) : ConfigDict :=
  match findActive st with
  | some v => toConfigDict v
  | none => initialConfigDict

/-- `_get_next_version_number`'s parse-and-increment of the latest row.
Python `int(...)` failures fall back to `"2.0"`. -/
def incrementVersion (s : String) : String :=
  match (s.splitOn ".").map String.toInt? with
  | [] => "2.0"
  | some major :: rest =>
    match rest with
    | [] => s!"{major}.{(1 : ℤ)}"
    | some minor :: _ => s!"{major}.{minor + 1}"
    | none :: _ => "2.0"
  | none :: _ => "2.0"

/-- `ScorecardVersionService._get_next_version_number`: look at the row with
the highest id (the last inserted), or start at `"1.0"`. -/
def nextVersionNumber (st : RegistryState) : String :=
  match st.getLast? with
  | none => "1.0"
  | some v => incrementVersion v.version

/-- `MIN_AUC_THRESHOLD = 0.55` (demo value in the source). -/
def MIN_AUC_THRESHOLD : ℚ := mkRat 55 100

/-- `IMPROVEMENT_THRESHOLD = 0.005`. -/
def IMPROVEMENT_THRESHOLD : ℚ := mkRat 5 1000

/-- The row built by `_save_failed_version` (hardcoded base 300 / max 900,
`status='failed'`, `notes=f"FAILED: {reason}"`). -/
def mkFailedVersion (st : RegistryState) (weights : List (String × ℚ))
    (ml_auc ml_f1 : ℚ) (ml_model_id : Option String) (reason : FailReason) :
    SCVersion :=
  { version := nextVersionNumber st, status := "failed", weights := weights,
    base_score := 300, max_score := 900, scaling_config := none,
    source := "ml_refined", ml_model_id := ml_model_id, ml_auc := some ml_auc,
    ml_f1 := some ml_f1, activated_at := none, retired_at := none,
    notes := .failedNote reason }

/-- The promoted row built at the end of `create_version_from_ml`
(config fields copied from the current active config, `status='active'`,
`activated_at=now`, `notes = notes or f"ML-refined from {...}"` where the
Python `or` treats the empty string as absent). -/
def mkPromotedVersion (st : RegistryState) (weights : List (String × ℚ))
    (ml_auc ml_f1 : ℚ) (ml_model_id : Option String) (notes : Option String)
    (now : ℕ) : SCVersion :=
  let current := getActiveScorecard st
  { version := nextVersionNumber st, status := "active", weights := weights,
    base_score := current.base_score, max_score := current.max_score,
    scaling_config := current.feature_scaling, source := "ml_refined",
    ml_model_id := ml_model_id, ml_auc := some ml_auc, ml_f1 := some ml_f1,
    activated_at := some now, retired_at := none,
    notes := match notes with
      | some s => if s = "" then .mlRefinedFrom current.version else .user s
      | none => .mlRefinedFrom current.version }

/-- `current_version.status = 'retired'; current_version.retired_at = now`
applied to the row `.first()` returned (the first active row). -/
def retireFirstActive (now : ℕ) : RegistryState → RegistryState
  | [] => []
  | v :: rest =>
    if v.status = "active" then
      { v with status := "retired", retired_at := some now } :: rest
    else
      v :: retireFirstActive now rest

/-- `ScorecardVersionService.create_version_from_ml`.  Gate 1: minimum AUC;
gate 2: improvement over the current active version's recorded AUC (the
Python truthiness test `if current_version and current_version.ml_auc:`
skips the gate when the prior AUC is null *or zero*); otherwise retire the
current active row and append the candidate as active. -/
def createVersionFromML (st : RegistryState) (weights : List (String × ℚ))
    (ml_auc ml_f1 : ℚ) (ml_model_id : Option String) (notes : Option String)
    (now : ℕ) : RegistryState :=
  if ml_auc < MIN_AUC_THRESHOLD then
    st ++ [mkFailedVersion st weights ml_auc ml_f1 ml_model_id
      (.belowMinAuc ml_auc MIN_AUC_THRESHOLD)]
  else
    match findActive st with
    | some cv =>
      match cv.ml_auc with
      | some a =>
        if a ≠ 0 ∧ ml_auc - a < IMPROVEMENT_THRESHOLD then
          st ++ [mkFailedVersion st weights ml_auc ml_f1 ml_model_id
            (.belowImprovement (ml_auc - a) IMPROVEMENT_THRESHOLD)]
        else
          retireFirstActive now st ++
            [mkPromotedVersion st weights ml_auc ml_f1 ml_model_id notes now]
      | none =>
        retireFirstActive now st ++
          [mkPromotedVersion st weights ml_auc ml_f1 ml_model_id notes now]
    | none =>
      retireFirstActive now st ++
        [mkPromotedVersion st weights ml_auc ml_f1 ml_model_id notes now]

/-- The seed row of `ensure_initial_version`. -/
def initialVersionRow (now : ℕ) : SCVersion :=
  { version := "1.0", status := "active", weights := initialWeights,
    base_score := 300, max_score := 900, scaling_config := some initialScaling,
    source := "expert", ml_model_id := none, ml_auc := none, ml_f1 := none,
    activated_at := some now, retired_at := none,
    notes := .user "Initial expert-defined scorecard" }

/-- `ScorecardVersionService.ensure_initial_version`: insert the seed expert
row unless a row with `version == '1.0'` already exists. -/
def ensureInitialVersion (st : RegistryState) (now : ℕ) : RegistryState :=
  if st.any (fun v => v.version == "1.0") then st
  else st ++ [initialVersionRow now]

/-- Number of rows with `status = 'active'`. -/
def countActive (st : RegistryState) : ℕ :=
  st.countP (fun v => v.status == "active")

/-- The registry invariant: at most one active version at any instant. -/
def atMostOneActive (st : RegistryState) : Prop :=
  countActive st ≤ 1

instance (st : RegistryState) : Decidable (atMostOneActive st) := by
  unfold atMostOneActive; infer_instance

/-! ## Temporal validation service (`app/services/validation_service.py`)
with the model-registry lookup of `app/services/model_registry_service.py` -/

/-- A registry row as `ModelRegistryService` reads it (`version_id`,
`coefficients`, `trained_on_batch_id`, `is_active`). -/
structure RegModelVersion where
  version_id : String
  coefficients : List (String × ℚ)
  trained_on_batch_id : Option String
  is_active : Bool
  created_at : ℕ
deriving Repr, DecidableEq

/-- A `Party` row (fields used by the validation joins). -/
structure PartyRef where
  id : ℕ
  batch_id : String
deriving Repr, DecidableEq

/-- A `ScoreRequest` row (only the join key matters here). -/
structure ScoreReqRef where
  party_id : ℕ
deriving Repr, DecidableEq

/-- A `GroundTruthLabel` row (only the batch key matters here). -/
structure LabelRef where
  party_id : ℕ
  dataset_batch : String
deriving Repr, DecidableEq

/-- Database slice visible to `TemporalValidationService`. -/
structure ValState where
  parties : List PartyRef
  scoreRequests : List ScoreReqRef
  labels : List LabelRef
  registry : List RegModelVersion
  modelCount : ℕ
deriving Repr, DecidableEq

/-- Every Python `ValueError` the validation paths can raise. -/
inductive ValError where
  | alreadyScored (batch : String) (count : ℕ)
  | temporalLeakage (batch : String) (version_id : String)
  | noActiveModel
  | notScoredYet (batch : String)
  | noLabels (batch : String)
deriving Repr, DecidableEq

/-- `query(ScoreRequest).join(Party).filter(Party.batch_id == batch).count()`:
the number of (score request, party) join rows for the batch. -/
def countScoresForBatch (st : ValState) (batch : String) : ℕ :=
  (st.scoreRequests.map (fun sr =>
    st.parties.countP (fun p => p.id == sr.party_id && p.batch_id == batch))).sum

/-- `ModelRegistryService.get_active_version`: the first `is_active` row, or a
`ValueError` when none exists. -/
def getActiveVersion (regs : List RegModelVersion) :
    Except ValError RegModelVersion :=
  match regs.find? (fun v => v.is_active) with
  | some v => .ok v
  | none => .error .noActiveModel

/-- `TemporalValidationService.validate_scoring_request`.  Check 1 raises
when the batch already has score records.  Check 2 runs inside
`try: ... except ValueError: pass`, so *any* `ValueError` raised there —
including the temporal-leakage error itself — is swallowed and the call
returns normally. -/
def validateScoringRequest (st : ValState) (batch : String) :
    Except ValError Unit :=
  let count := countScoresForBatch st batch
  if count > 0 then
    .error (.alreadyScored batch count)
  else
    match (do
      let active ← getActiveVersion st.registry
      if active.trained_on_batch_id = some batch then
        throw (.temporalLeakage batch active.version_id)
      else
        pure () : Except ValError Unit) with
    | .ok _ => .ok ()
    | .error _ => .ok ()

/-- `TemporalValidationService.validate_training_request` (for context):
requires prior scores unless no model exists (bootstrap), and labels. -/
def validateTrainingRequest (st : ValState) (batch : String) :
    Except ValError Unit := do
  if countScoresForBatch st batch = 0 ∧ st.modelCount ≠ 0 then
    throw (.notScoredYet batch)
  if st.labels.countP (fun l => l.dataset_batch == batch) = 0 then
    throw (.noLabels batch)

/-! ## Feature store writes (`app/services/feature_pipeline_service.py`,
`_store_features`) -/

/-- One `features` table row (`Feature` in `app/models/models.py`):
`valid_to = none` marks the current snapshot. -/
structure FeatureRow where
  party_id : ℕ
  feature_name : String
  feature_value : ℚ
  confidence : ℚ
  source_type : String
  valid_from : ℕ
  valid_to : Option ℕ
deriving Repr, DecidableEq

/-- A freshly extracted feature about to be stored. -/
structure NewFeature where
  feature_name : String
  feature_value : ℚ
  confidence : ℚ
  source_type : String
deriving Repr, DecidableEq

/-- Is this row caught by the expiry query of `_store_features`?
(current row of the party, and of a listed source type if a filter is given). -/
def closedByStore (party : ℕ) (affected : Option (List String))
    (r : FeatureRow) : Bool :=
  r.party_id == party && r.valid_to == none &&
    (match affected with
     | none => true
     | some srcs => srcs.contains r.source_type)

/-- `FeaturePipelineService._store_features`: in one transaction, set
`valid_to = now` on every matching current row, then insert the new rows
as current. -/
def storeFeatures (st : List FeatureRow) (party : ℕ) (feats : List NewFeature)
    (affected : Option (List String)) (now : ℕ) : List FeatureRow :=
  st.map (fun r =>
    if closedByStore party affected r then { r with valid_to := some now } else r)
  ++ feats.map (fun f =>
    { party_id := party, feature_name := f.feature_name,
      feature_value := f.feature_value, confidence := f.confidence,
      source_type := f.source_type, valid_from := now, valid_to := none })

/-- Number of current rows for one `(entity, feature name)` pair. -/
def countCurrent (st : List FeatureRow) (pid : ℕ) (name : String) : ℕ :=
  st.countP (fun r => r.party_id == pid && r.feature_name == name &&
    r.valid_to == none)

/-- The feature-store invariant: per `(entity_id, feature_name)` at most one
record with `valid_to = null`. -/
def atMostOneCurrent (st : List FeatureRow) : Prop :=
  ∀ pid name, countCurrent st pid name ≤ 1

/-! ## Point-in-time extractors (`app/extractors/*.py`) and the training
matrix builder (`app/services/feature_matrix_builder.py`).

Timestamps are days (`ℤ`); the 6-month and 30-day windows of the
transaction extractor are the source's `timedelta(days=180)` and
`timedelta(days=30)`.  `strftime('%Y-%m')` month keys, `numpy.mean` and
`numpy.std` are abstracted into an `ExtractorEnv`. -/

/-- A `transactions` row (fields the extractor reads). -/
structure TransactionRow where
  party_id : ℕ
  transaction_date : ℤ
  amount : ℚ
  transaction_type : String
deriving Repr, DecidableEq

/-- A `relationships` row (fields the network extractor reads). -/
structure RelationshipRow where
  from_party_id : ℕ
  to_party_id : ℕ
  established_date : ℤ
deriving Repr, DecidableEq

/-- A `parties` row (fields the KYC extractor reads). -/
structure PartyRow where
  id : ℕ
  batch_id : String
  kyc_verified : Bool
  created_at : Option ℤ
  party_type : Option String
  contact_person : Option String
  email : Option String
  phone : Option String
  address : Option String
  tax_id : Option String
deriving Repr, DecidableEq

/-- A `ground_truth_labels` row (fields the builder reads). -/
structure LabelRow where
  party_id : ℕ
  will_default : ℕ
  created_at : ℤ
  dataset_batch : String
deriving Repr, DecidableEq

/-- The source tables feature extraction reads. -/
structure SourceDb where
  parties : List PartyRow
  transactions : List TransactionRow
  relationships : List RelationshipRow
  labels : List LabelRow
deriving Repr, DecidableEq

/-- A `FeatureExtractorResult`. -/
structure FER where
  feature_name : String
  feature_value : ℚ
  confidence : ℚ
deriving Repr, DecidableEq

/-- External numeric routines used by the transaction extractor. -/
structure ExtractorEnv where
  monthKey : ℤ → String
  npMean : List ℚ → ℚ
  npStd : List ℚ → ℚ

/-- Python truthiness of an optional string column (None and "" are falsy). -/
def strTruthy : Option String → Bool
  | none => false
  | some s => !(s == "")

/-- `monthly_volumes[month_key] = monthly_volumes.get(month_key, 0.0) + amount`
on an insertion-ordered dict. -/
def bumpKey (key : String) (amt : ℚ) : List (String × ℚ) → List (String × ℚ)
  | [] => [(key, amt)]
  | p :: rest =>
    if p.1 = key then (p.1, p.2 + amt) :: rest else p :: bumpKey key amt rest

/-- The per-month volume grouping of the transaction extractor. -/
def monthlyVolumes (env : ExtractorEnv) (txns : List TransactionRow) :
    List (String × ℚ) :=
  txns.foldl (fun acc t => bumpKey (env.monthKey t.transaction_date) t.amount acc) []

/-- The coefficient-of-variation regularity score (FIX #2 in the source). -/
def regularityScore (env : ExtractorEnv) (txns : List TransactionRow) : ℚ :=
  let mv := monthlyVolumes env txns
  if mv.isEmpty then 0
  else
    let vols := mv.map (fun p => p.2)
    if vols.length < 2 then 50
    else
      let meanVol := env.npMean vols
      let cv := if meanVol < mkRat 1 100 then 1 else env.npStd vols / meanVol
      100 * (1 - min cv 1)

/-- `TransactionFeatureExtractor._get_default_features`. -/
def defaultTransactionFeatures : List FER :=
  [⟨"transaction_count_6m", 0, mkRat 3 10⟩,
   ⟨"avg_transaction_amount", 0, mkRat 3 10⟩,
   ⟨"total_transaction_volume_6m", 0, mkRat 3 10⟩,
   ⟨"transaction_regularity_score", 0, mkRat 3 10⟩,
   ⟨"payment_type_diversity", 0, mkRat 3 10⟩,
   ⟨"recent_activity_flag", 0, 1⟩]

/-- `TransactionFeatureExtractor.extract`: only transactions with
`six_months_ago <= transaction_date <= ref_date` (where `ref_date` is the
as-of date when given) feed the six features. -/
def transactionExtract (env : ExtractorEnv) (db : SourceDb) (pid : ℕ)
    (now : ℤ) (asOf : Option ℤ) : List FER :=
  let ref := asOf.getD now
  let six := ref - 180
  let txns := db.transactions.filter (fun t =>
    t.party_id == pid && decide (six ≤ t.transaction_date) &&
      decide (t.transaction_date ≤ ref))
  if txns.isEmpty then defaultTransactionFeatures
  else
    let amounts := txns.map (fun t => t.amount)
    let thirty := ref - 30
    let recentCount := txns.countP (fun t => decide (thirty ≤ t.transaction_date))
    [⟨"transaction_count_6m", (txns.length : ℚ), 1⟩,
     ⟨"avg_transaction_amount", amounts.sum / (amounts.length : ℚ), 1⟩,
     ⟨"total_transaction_volume_6m", amounts.sum, 1⟩,
     ⟨"transaction_regularity_score", regularityScore env txns,
       if 3 ≤ (monthlyVolumes env txns).length then mkRat 8 10 else mkRat 5 10⟩,
     ⟨"payment_type_diversity",
       ((txns.map (fun t => t.transaction_type)).dedup.length : ℚ), 1⟩,
     ⟨"recent_activity_flag", if recentCount > 0 then 1 else 0, 1⟩]

/-- The `party_type_scores` table of the KYC extractor (`.get(key, 5)`). -/
def partyTypeScore (key : String) : ℚ :=
  if key = "manufacturer" then 10
  else if key = "distributor" then 8
  else if key = "supplier" then 7
  else if key = "retailer" then 6
  else if key = "customer" then 5
  else 5

/-- `KYCFeatureExtractor.extract`: reads only the party row; company age is
relative to the as-of reference date and floored at 0. -/
def kycExtract (db : SourceDb) (pid : ℕ) (now : ℤ) (asOf : Option ℤ) :
    List FER :=
  match db.parties.find? (fun p => p.id == pid) with
  | none => []
  | some party =>
    let ref := asOf.getD now
    let ageFeature : List FER :=
      match party.created_at with
      | some c => [⟨"company_age_years",
          max 0 (((ref - c : ℤ) : ℚ) / mkRat 1461 4), mkRat 9 10⟩]
      | none => []
    let key := match party.party_type with
      | some s => if s == "" then "customer" else s.toLower
      | none => "customer"
    let completeness : ℚ :=
      (([party.contact_person, party.email, party.phone,
         party.address].countP strTruthy : ℚ)) / 4
    [⟨"kyc_verified", if party.kyc_verified then 1 else 0, 1⟩] ++ ageFeature ++
      [⟨"party_type_score", partyTypeScore key, 1⟩,
       ⟨"contact_completeness", completeness * 100, 1⟩,
       ⟨"has_tax_id", if strTruthy party.tax_id then 1 else 0, 1⟩]

/-- `NetworkFeatureExtractor.extract`: relationship counts filtered by
`established_date <= as_of` when an as-of date is given.  The
`get_downstream_network(..., as_of_date=...)` call always raises `TypeError`
(the function takes no such argument) and is caught, so depth and size are
constant 0. -/
def networkExtract (db : SourceDb) (pid : ℕ) (now : ℤ) (asOf : Option ℤ) :
    List FER :=
  let fd := asOf.getD now
  let keep : RelationshipRow → Bool := fun r =>
    match asOf with
    | some _ => decide (r.established_date ≤ fd)
    | none => true
  let down := db.relationships.countP (fun r => r.from_party_id == pid && keep r)
  let up := db.relationships.countP (fun r => r.to_party_id == pid && keep r)
  [⟨"direct_counterparty_count", ((down + up : ℕ) : ℚ), 1⟩,
   ⟨"network_depth_downstream", 0, mkRat 9 10⟩,
   ⟨"network_size", 0, mkRat 9 10⟩,
   ⟨"supplier_count", (up : ℚ), 1⟩,
   ⟨"customer_count", (down : ℚ), 1⟩,
   ⟨"network_balance_ratio", (down : ℚ) / ((up : ℚ) + 1), mkRat 8 10⟩]

/-- `FeaturePipelineService.extract_features` with all extractors, in
registration order (KYC, transactions, network). -/
def extractAllFeatures (env : ExtractorEnv) (db : SourceDb) (pid : ℕ)
    (now : ℤ) (asOf : Option ℤ) : List FER :=
  kycExtract db pid now asOf ++ transactionExtract env db pid now asOf ++
    networkExtract db pid now asOf

/-- `FeatureMatrixBuilder.FEATURE_NAMES`. -/
def FEATURE_NAMES : List String :=
  ["kyc_verified", "company_age_years", "party_type_score",
   "contact_completeness", "has_tax_id", "transaction_count_6m",
   "avg_transaction_amount", "transaction_regularity_score", "network_size"]

/-- `{f.feature_name: f.feature_value for f in features_list}` followed by
`.get(name)`: the last entry for a name wins. -/
def featureDictGet (fers : List FER) (name : String) : Option ℚ :=
  (fers.reverse.find? (fun f => f.feature_name == name)).map
    (fun f => f.feature_value)

/-- One row of the training matrix: missing features become `0.0`. -/
def buildRowValues (fers : List FER) : List ℚ :=
  FEATURE_NAMES.map (fun n => (featureDictGet fers n).getD 0)

/-- One labelled example produced by `build_matrix`. -/
structure MatrixRow where
  party_id : ℕ
  x : List ℚ
  y : ℕ
  label_date : ℤ
deriving Repr, DecidableEq

/-- The example built for one party: features are extracted with
`as_of_date = label.created_at` (FIX #9 in the source). -/
def mkMatrixRow (env : ExtractorEnv) (db : SourceDb) (p : PartyRow)
    (l : LabelRow) (now : ℤ) : MatrixRow :=
  { party_id := p.id,
    x := buildRowValues (extractAllFeatures env db p.id now (some l.created_at)),
    y := l.will_default, label_date := l.created_at }

/-- `FeatureMatrixBuilder.build_matrix`: for every party of the batch with a
ground-truth label (first label row by party id), one example extracted as of
the label date. -/
def buildMatrix (env : ExtractorEnv) (db : SourceDb) (batch : String)
    (now : ℤ) : List MatrixRow :=
  (db.parties.filter (fun p => p.batch_id == batch)).filterMap (fun p =>
    (db.labels.find? (fun l => l.party_id == p.id)).map (fun l =>
      mkMatrixRow env db p l now))

/-- Drop every transaction and relationship dated after `t` (parties and
labels are kept: they are the entities and targets, not dated source
records). -/
def restrictDb (db : SourceDb) (t : ℤ) : SourceDb :=
  { db with
    transactions := db.transactions.filter (fun x => decide (x.transaction_date ≤ t)),
    relationships := db.relationships.filter (fun r => decide (r.established_date ≤ t)) }

/-! ## ML → scorecard converter
(`app/services/model_training_service.py`, `convert_to_scorecard`) -/

/-- `sum(abs(c) for c in coefficients)`. -/
def absSum (coeffs : List ℚ) : ℚ := (coeffs.map (fun c => |c|)).sum

/-- The per-coefficient points: `int((coef / abs_sum) * total_points)`. -/
def coefPoints (coeffs : List ℚ) (total : ℤ) (c : ℚ) : ℤ :=
  ratTrunc (c / absSum coeffs * (total : ℚ))

/-- Output of `convert_to_scorecard`. -/
structure ConvertedScorecard where
  weights : List (String × ℤ)
  intercept : ℤ
  features : List String
  conversion_method : String
  total_points_scale : ℤ
deriving Repr, DecidableEq

/-- `ModelTrainingService.convert_to_scorecard`: degenerate all-zero models
get all-zero weights and base 50; otherwise every coefficient is scaled by
`total_points / sum(abs(coef))` and truncated toward zero, and the base
score is the clamped intercept mapping. -/
def convertToScorecard (coeffs : List ℚ) (names : List String)
    (intercept : ℚ) (total : ℤ) : ConvertedScorecard :=
  if absSum coeffs = 0 then
    { weights := names.map (fun n => (n, 0)), intercept := 50,
      features := names, conversion_method := "ml_coefficient_scaling",
      total_points_scale := total }
  else
    { weights := names.zip (coeffs.map (coefPoints coeffs total)),
      intercept := max 0 (min 100
        (ratTrunc (50 + intercept / absSum coeffs * 25))),
      features := names, conversion_method := "ml_coefficient_scaling",
      total_points_scale := total }

/-- Formalisation of the claim wording (spec §4.3), for comparison with the
source: `scale = total_points / max(|coef_i|)`; `weight_i = round(coef_i *
scale)`. -/
def specFormulaWeights (coeffs : List ℚ) (total : ℤ) : List ℤ :=
  let m := (coeffs.map (fun c => |c|)).foldr max 0
  coeffs.map (fun c => round (c * ((total : ℚ) / m)))

/-! ## Scoring service normalization (`app/services/scoring_service.py`) -/

/-- The resolved model configuration (`model_config` JSON): scorecard
weights/intercept, ML coefficients/features, and — on the scorecard-version
path — the config's own `base_score`/`max_score`, which the claim says the
final score must not depend on. -/
structure ResolvedConfig where
  weights : List (String × ℚ)
  intercept : ℚ
  coefficients : List ℚ
  features : List String
  base_score : ℤ
  max_score : ℤ
deriving Repr, DecidableEq

/-- `features.get(name, 0)` over the current-feature mapping. -/
def fvalue (features : List (String × ℚ)) (name : String) : ℚ :=
  ((features.find? (fun p => p.1 == name)).map (fun p => p.2)).getD 0

/-- `ScoringService._compute_scorecard`:
`raw = intercept + Σ features.get(name, 0) * weight`. -/
def computeScorecardRaw (features : List (String × ℚ)) (cfg : ResolvedConfig) :
    ℚ :=
  cfg.intercept + (cfg.weights.map (fun p => fvalue features p.1 * p.2)).sum

/-- `ScoringService._compute_ml_model`: positional dot product, then the
sigmoid (abstracted as `sigmoid`) scaled to 0–1000. -/
def computeMlModelRaw (sigmoid : ℚ → ℚ) (features : List (String × ℚ))
    (cfg : ResolvedConfig) : ℚ :=
  let dot := cfg.intercept +
    ((cfg.features.zip cfg.coefficients).map
      (fun p => fvalue features p.1 * p.2)).sum
  sigmoid dot * 1000

/-- `ScoringService._normalize_score`: `300 + ((raw - 0) / (1000 - 0)) * 600`,
truncated by `int(...)` and clamped to the fixed 300–900 range. -/
def normalizeScore (raw : ℚ) : ℤ :=
  let minRaw : ℚ := 0
  let maxRaw : ℚ := 1000
  max 300 (min 900 (ratTrunc (300 + (raw - minRaw) / (maxRaw - minRaw) * 600)))

/-- The final score of `compute_score` on the scorecard path (steps 4–5). -/
def finalScoreScorecard (features : List (String × ℚ)) (cfg : ResolvedConfig) :
    ℤ :=
  normalizeScore (computeScorecardRaw features cfg)

/-- The final score of `compute_score` on the ML path (steps 4–5). -/
def finalScoreMl (sigmoid : ℚ → ℚ) (features : List (String × ℚ))
    (cfg : ResolvedConfig) : ℤ :=
  normalizeScore (computeMlModelRaw sigmoid features cfg)

/-! ## Helper lemmas -/

theorem ratTrunc_nonneg {q : ℚ} (h : 0 ≤ q) : 0 ≤ ratTrunc q := by
  simp only [ratTrunc, if_pos h]
  exact Int.floor_nonneg.mpr h

theorem ratTrunc_nonpos {q : ℚ} (h : q ≤ 0) : ratTrunc q ≤ 0 := by
  by_cases h0 : 0 ≤ q
  · have hq : q = 0 := le_antisymm h h0
    simp [ratTrunc, hq]
  · simp only [ratTrunc, if_neg h0]
    rw [Int.ceil_le]
    exact_mod_cast h

theorem ratTrunc_zero : ratTrunc 0 = 0 := by
  simp [ratTrunc]

theorem countActive_append (a b : RegistryState) :
    countActive (a ++ b) = countActive a + countActive b := by
  simp [countActive, List.countP_append]

theorem countActive_cons (v : SCVersion) (rest : RegistryState) :
    countActive (v :: rest) =
      countActive rest + (if v.status = "active" then 1 else 0) := by
  simp only [countActive, List.countP_cons]
  by_cases hv : v.status = "active" <;> simp [hv]

theorem countActive_retireFirstActive (now : ℕ) (st : RegistryState)
    (h : atMostOneActive st) : countActive (retireFirstActive now st) = 0 := by
  induction st with
  | nil => rfl
  | cons v rest ih =>
    unfold atMostOneActive at h
    rw [countActive_cons] at h
    by_cases hv : v.status = "active"
    · simp only [retireFirstActive, if_pos hv]
      rw [countActive_cons]
      have hrest : countActive rest = 0 := by
        rw [if_pos hv] at h
        omega
      simp [hrest]
    · simp only [retireFirstActive, if_neg hv]
      rw [countActive_cons, if_neg hv]
      rw [if_neg hv] at h
      have hrest : atMostOneActive rest := by
        unfold atMostOneActive
        omega
      simp [ih hrest]

/-! ## Claim C1 -/

/-- The input on which the guard fails: one active registry version trained
on batch `BATCH_A`, and no score records for that batch. -/
def c1FailState : ValState :=
  { parties := [⟨1, "BATCH_A"⟩],
    scoreRequests := [],
    labels := [],
    registry := [⟨"v002", [], some "BATCH_A", true, 0⟩],
    modelCount := 1 }

/-- C1: the claim says `validate_scoring_request(batch_id)` must not return
normally when the active model's `trained_on_batch_id == batch_id`.  The code
violates this: the batch below has no score records and the active model was
trained on it, yet the call returns normally, because the temporal-leakage
`ValueError` is raised inside the `try:` block whose `except ValueError:
pass` swallows it.  (The repository's own test expects this call to raise
`ValueError` matching "TEMPORAL LEAKAGE".) -/
theorem c1_leakage_error_swallowed :
    (c1FailState.registry.find? (fun v => v.is_active)).map
        (fun v => v.trained_on_batch_id) = some (some "BATCH_A") ∧
    countScoresForBatch c1FailState "BATCH_A" = 0 ∧
    validateScoringRequest c1FailState "BATCH_A" = .ok () :=
  ⟨rfl, rfl, rfl⟩

/-! ## Claim C6 -/

/-- Concrete engine config for the determinism counterexample. -/
def c6Cfg : EngineConfig :=
  { version := "1.0", base_score := 300, max_score := 900,
    weights := [("kyc_verified", 15)], feature_scaling := [] }

/-- A concrete stand-in for `math.log10` (its value is irrelevant here). -/
def zeroLog : ℚ → ℚ := fun _ => 0

/-- C6 counterexample: two calls of `compute_scorecard_score` with identical
`(features, config)` do *not* yield an identical output dictionary — the
returned `computed_at` field is `datetime.utcnow().isoformat()`, so runs at
different wall-clock instants differ in that field. -/
theorem c6_counterexample_timestamp_field :
    computeScorecardScore zeroLog c6Cfg [("kyc_verified", some 1)] 0 ≠
      computeScorecardScore zeroLog c6Cfg [("kyc_verified", some 1)] 1 := by
  with_unfolding_all decide

/-- C6 amended: with identical `(features, config)`, every field of the
output except the `computed_at` wall-clock timestamp is identical across the
two runs (`score`, `raw_score`, `contributions`, `missing_features`,
`scorecard_version` carry no randomness or clock dependence). -/
theorem c6_deterministic_except_timestamp (log10 : ℚ → ℚ) (cfg : EngineConfig)
    (features : Features) (t1 t2 : ℕ) :
    (computeScorecardScore log10 cfg features t1).score =
      (computeScorecardScore log10 cfg features t2).score ∧
    (computeScorecardScore log10 cfg features t1).raw_score =
      (computeScorecardScore log10 cfg features t2).raw_score ∧
    (computeScorecardScore log10 cfg features t1).contributions =
      (computeScorecardScore log10 cfg features t2).contributions ∧
    (computeScorecardScore log10 cfg features t1).missing_features =
      (computeScorecardScore log10 cfg features t2).missing_features ∧
    (computeScorecardScore log10 cfg features t1).scorecard_version =
      (computeScorecardScore log10 cfg features t2).scorecard_version :=
  ⟨rfl, rfl, rfl, rfl, rfl⟩

/-! ## Claim C10 -/

/-- C10: on both scoring paths the final score of `compute_score` is an
integer in `[300, 900]`, obtained by mapping the raw model output through
`300 + (raw / 1000) * 600` (Python `int()` truncation) and clamping to the
fixed constants 300 and 900; and it is independent of the resolved
configuration's own `base_score` and `max_score` (two configs that agree on
weights, intercept, coefficients and feature list — but not necessarily on
`base_score`/`max_score` — give the same final score). -/
theorem c10_normalize_range_and_config_independence (raw : ℚ)
    (sigmoid : ℚ → ℚ) (features : List (String × ℚ))
    (cfg cfg2 : ResolvedConfig) (hw : cfg.weights = cfg2.weights)
    (hi : cfg.intercept = cfg2.intercept)
    (hc : cfg.coefficients = cfg2.coefficients)
    (hf : cfg.features = cfg2.features) :
    (300 ≤ normalizeScore raw ∧ normalizeScore raw ≤ 900 ∧
      normalizeScore raw = max 300 (min 900 (ratTrunc (300 + raw / 1000 * 600)))) ∧
    finalScoreScorecard features cfg = finalScoreScorecard features cfg2 ∧
    finalScoreMl sigmoid features cfg = finalScoreMl sigmoid features cfg2 := by
  refine ⟨⟨le_max_left _ _, ?_, ?_⟩, ?_, ?_⟩
  · exact max_le (by norm_num) (min_le_left _ _)
  · simp only [normalizeScore]
    norm_num
  · simp [finalScoreScorecard, computeScorecardRaw, hw, hi]
  · simp [finalScoreMl, computeMlModelRaw, hc, hf, hi]

/-- Concrete configs that differ *only* in `base_score`/`max_score`. -/
def c10CfgA : ResolvedConfig :=
  { weights := [("kyc_verified", 15)], intercept := 300, coefficients := [2],
    features := ["kyc_verified"], base_score := 300, max_score := 900 }

/-- Same model numbers, different declared score range. -/
def c10CfgB : ResolvedConfig :=
  { weights := [("kyc_verified", 15)], intercept := 300, coefficients := [2],
    features := ["kyc_verified"], base_score := 0, max_score := 100 }

/-- C10 witness: the normalization facts and the base/max independence at a
concrete raw score and at two configs differing only in
`base_score`/`max_score`. -/
theorem c10_witness :
    (300 ≤ normalizeScore 450 ∧ normalizeScore 450 ≤ 900 ∧
      normalizeScore 450 = max 300 (min 900 (ratTrunc (300 + 450 / 1000 * 600)))) ∧
    finalScoreScorecard [("kyc_verified", 1)] c10CfgA =
      finalScoreScorecard [("kyc_verified", 1)] c10CfgB ∧
    finalScoreMl (fun _ => mkRat 1 2) [("kyc_verified", 1)] c10CfgA =
      finalScoreMl (fun _ => mkRat 1 2) [("kyc_verified", 1)] c10CfgB :=
  c10_normalize_range_and_config_independence 450 (fun _ => mkRat 1 2)
    [("kyc_verified", 1)] c10CfgA c10CfgB rfl rfl rfl rfl

/-! ## Claim C8 -/

/-- C8 counterexample: the claim's formula (`scale = total_points /
max(|coef_i|)`, `weight_i = round(coef_i * scale)`) gives 100 points to each
of two equal coefficients, but the source normalizes by the *sum* of
absolute coefficients and truncates with `int()`, giving 50 each. -/
theorem c8_counterexample_scale_divisor :
    (convertToScorecard [1, 1] ["a", "b"] 0 100).weights =
      [("a", 50), ("b", 50)] ∧
    specFormulaWeights [1, 1] 100 = [100, 100] := by
  with_unfolding_all decide

/-- C8 amended: for a model with a nonzero coefficient vector,
`convert_to_scorecard` computes `scale = total_points / sum(|coef_i|)` and
sets each `weight_i = trunc(coef_i * scale)` (Python `int()`, truncation
toward zero — not `round`). -/
theorem c8_sum_scaling (coeffs : List ℚ) (names : List String)
    (intercept : ℚ) (total : ℤ) (h : absSum coeffs ≠ 0) :
    (convertToScorecard coeffs names intercept total).weights =
      names.zip (coeffs.map (fun c =>
        ratTrunc (c * ((total : ℚ) / absSum coeffs)))) := by
  simp only [convertToScorecard, if_neg h]
  have hfun : coefPoints coeffs total = fun c =>
      ratTrunc (c * ((total : ℚ) / absSum coeffs)) := by
    funext c
    simp only [coefPoints]
    congr 1
    field_simp
  rw [hfun]

/-- C8 witness: the amended scaling rule evaluated on a concrete
two-coefficient model. -/
theorem c8_sum_scaling_witness :
    (convertToScorecard [1, 1] ["a", "b"] 0 100).weights =
      ["a", "b"].zip ([1, 1].map (fun c =>
        ratTrunc (c * ((100 : ℚ) / absSum [1, 1])))) :=
  c8_sum_scaling [1, 1] ["a", "b"] 0 100 (by with_unfolding_all decide)

/-! ## Claim C7 -/

/-- Scenario 1 of spec §8: weights `{kyc_verified: 15}`, base 300. -/
def scenario1Cfg : EngineConfig :=
  { version := "1.0", base_score := 300, max_score := 900,
    weights := [("kyc_verified", 15)], feature_scaling := [] }

/-- C7: every weighted feature that is absent or null contributes exactly 0
and is listed in `missing_features`; `raw_score = base_score + Σ
contributions`; the returned score is `raw_score` clamped to
`[base_score, max_score]`; and on scenario 1 (`{kyc_verified: true}` with
weight 15 and base 300) the contribution is exactly 15 and the final score
is 315. -/
theorem c7_missing_zero_and_clamp (log10 : ℚ → ℚ) (cfg : EngineConfig)
    (features : Features) (now : ℕ) :
    (∀ name weight, (name, weight) ∈ cfg.weights →
      (flookup features name = none ∨ flookup features name = some none) →
      (name, (0 : ℚ)) ∈ (computeScorecardScore log10 cfg features now).contributions ∧
      name ∈ (computeScorecardScore log10 cfg features now).missing_features) ∧
    (computeScorecardScore log10 cfg features now).raw_score =
      cfg.base_score +
        ((computeScorecardScore log10 cfg features now).contributions.map
          (fun c => c.2)).sum ∧
    (computeScorecardScore log10 cfg features now).score =
      max cfg.base_score (min cfg.max_score
        (computeScorecardScore log10 cfg features now).raw_score) ∧
    (computeScorecardScore log10 scenario1Cfg
      [("kyc_verified", some 1)] now).contributions = [("kyc_verified", 15)] ∧
    (computeScorecardScore log10 scenario1Cfg
      [("kyc_verified", some 1)] now).score = 315 := by
  refine ⟨?_, rfl, rfl, ?_, ?_⟩
  · intro name weight hmem hmiss
    have hres : featureResult log10 cfg features (name, weight) = (0, true) := by
      rcases hmiss with hm | hm <;> simp [featureResult, hm]
    constructor
    · simp only [computeScorecardScore, List.map_map]
      exact List.mem_map.mpr ⟨(name, weight), hmem, by simp [hres]⟩
    · simp only [computeScorecardScore]
      refine List.mem_map.mpr ⟨(name, featureResult log10 cfg features
        (name, weight)), List.mem_filter.mpr ⟨?_, by simp [hres]⟩, rfl⟩
      exact List.mem_map.mpr ⟨(name, weight), hmem, rfl⟩
  · with_unfolding_all rfl
  · show max (300 : ℚ) (min 900 (300 + (15 + 0))) = 315
    norm_num

/-- C7 witness: on a config whose only weighted feature is absent from the
feature mapping, the contribution is 0 and the feature is reported missing. -/
theorem c7_missing_zero_and_clamp_witness :
    ("kyc_verified", (0 : ℚ)) ∈
      (computeScorecardScore zeroLog scenario1Cfg [] 0).contributions ∧
    "kyc_verified" ∈
      (computeScorecardScore zeroLog scenario1Cfg [] 0).missing_features :=
  (c7_missing_zero_and_clamp zeroLog scenario1Cfg [] 0).1 "kyc_verified" 15
    (by with_unfolding_all decide) (Or.inl rfl)

/-! ## Claim C2 -/

theorem findActive_cons_active {v : SCVersion} (rest : RegistryState)
    (hv : v.status = "active") : findActive (v :: rest) = some v := by
  simp [findActive, List.find?_cons, hv]

theorem findActive_cons_inactive {v : SCVersion} (rest : RegistryState)
    (hv : ¬ v.status = "active") :
    findActive (v :: rest) = findActive rest := by
  simp only [findActive, List.find?_cons]
  have : (v.status == "active") = false := by
    simpa using hv
  simp [this]

theorem mem_retireFirstActive (now : ℕ) (st : RegistryState) (cv : SCVersion)
    (h : findActive st = some cv) :
    { cv with status := "retired", retired_at := some now } ∈
      retireFirstActive now st := by
  induction st with
  | nil => simp [findActive] at h
  | cons v rest ih =>
    by_cases hv : v.status = "active"
    · rw [findActive_cons_active rest hv] at h
      injection h with h
      subst h
      simp [retireFirstActive, hv]
    · rw [findActive_cons_inactive rest hv] at h
      simp only [retireFirstActive, if_neg hv]
      exact List.mem_cons_of_mem v (ih h)

theorem min_auc_value : MIN_AUC_THRESHOLD = 55 / 100 := by
  norm_num [MIN_AUC_THRESHOLD, Rat.mkRat_eq_div]

theorem improvement_value : IMPROVEMENT_THRESHOLD = 5 / 1000 := by
  norm_num [IMPROVEMENT_THRESHOLD, Rat.mkRat_eq_div]

/-- The conclusion of claim C2, as a predicate on the call's inputs.

* Gate 1: `ml_auc < MIN_AUC_THRESHOLD` ⟹ the candidate is appended as a
  `failed` row with a reason and every pre-existing row (in particular the
  active one) is untouched;
* Gate 2: a prior active version with recorded AUC `a` and
  `ml_auc - a < IMPROVEMENT_THRESHOLD` ⟹ same failed outcome;
* otherwise the candidate is appended with `status='active'`,
  `activated_at = now`, and the prior active row is re-written with
  `status='retired'`, `retired_at = now`. -/
def c2Conclusion (st : RegistryState) (weights : List (String × ℚ))
    (auc f1 : ℚ) (mid : Option String) (notes : Option String) (now : ℕ) :
    Prop :=
  (auc < MIN_AUC_THRESHOLD →
    createVersionFromML st weights auc f1 mid notes now =
      st ++ [mkFailedVersion st weights auc f1 mid
        (.belowMinAuc auc MIN_AUC_THRESHOLD)] ∧
    (mkFailedVersion st weights auc f1 mid
      (.belowMinAuc auc MIN_AUC_THRESHOLD)).status = "failed") ∧
  (∀ cv a, MIN_AUC_THRESHOLD ≤ auc → findActive st = some cv →
    cv.ml_auc = some a → auc - a < IMPROVEMENT_THRESHOLD →
    createVersionFromML st weights auc f1 mid notes now =
      st ++ [mkFailedVersion st weights auc f1 mid
        (.belowImprovement (auc - a) IMPROVEMENT_THRESHOLD)] ∧
    (mkFailedVersion st weights auc f1 mid
      (.belowImprovement (auc - a) IMPROVEMENT_THRESHOLD)).status = "failed") ∧
  (MIN_AUC_THRESHOLD ≤ auc →
    (∀ cv a, findActive st = some cv → cv.ml_auc = some a →
      IMPROVEMENT_THRESHOLD ≤ auc - a) →
    createVersionFromML st weights auc f1 mid notes now =
      retireFirstActive now st ++
        [mkPromotedVersion st weights auc f1 mid notes now] ∧
    (mkPromotedVersion st weights auc f1 mid notes now).status = "active" ∧
    (mkPromotedVersion st weights auc f1 mid notes now).activated_at =
      some now ∧
    (∀ cv, findActive st = some cv →
      { cv with status := "retired", retired_at := some now } ∈
        createVersionFromML st weights auc f1 mid notes now))

/-- C2: `create_version_from_ml` persists a failed row (leaving the active
version untouched) when the minimum-AUC gate or the improvement gate fires,
and otherwise atomically retires the prior active version and appends the
candidate as the new active version. -/
theorem c2_promotion_gates (st : RegistryState) (weights : List (String × ℚ))
    (auc f1 : ℚ) (mid : Option String) (notes : Option String) (now : ℕ) :
    c2Conclusion st weights auc f1 mid notes now := by
  refine ⟨fun h => ⟨by simp [createVersionFromML, h], rfl⟩, ?_, ?_⟩
  · intro cv a hge hfind hauc hlt
    have hnm : ¬ auc < MIN_AUC_THRESHOLD := not_lt.mpr hge
    have hane : a ≠ 0 := by
      intro haz
      rw [haz, sub_zero] at hlt
      rw [min_auc_value] at hge
      rw [improvement_value] at hlt
      linarith
    refine ⟨?_, rfl⟩
    simp [createVersionFromML, if_neg hnm, hfind, hauc, hane, hlt]
  · intro hge hgate
    have hnm : ¬ auc < MIN_AUC_THRESHOLD := not_lt.mpr hge
    have hres : createVersionFromML st weights auc f1 mid notes now =
        retireFirstActive now st ++
          [mkPromotedVersion st weights auc f1 mid notes now] := by
      rcases hfind : findActive st with _ | cv
      · simp [createVersionFromML, if_neg hnm, hfind]
      · rcases hauc : cv.ml_auc with _ | a
        · simp [createVersionFromML, if_neg hnm, hfind, hauc]
        · have hcond : ¬ (a ≠ 0 ∧ auc - a < IMPROVEMENT_THRESHOLD) := by
            rintro ⟨-, hlt⟩
            exact absurd hlt (not_lt.mpr (hgate cv a hfind hauc))
          simp [createVersionFromML, if_neg hnm, hfind, hauc, if_neg hcond]
    refine ⟨hres, rfl, rfl, ?_⟩
    intro cv hcv
    rw [hres]
    exact List.mem_append_left _ (mem_retireFirstActive now st cv hcv)

/-- A one-version registry with an active row whose recorded AUC is 0.6. -/
def c2DemoState : RegistryState :=
  [{ version := "1.0", status := "active", weights := [("kyc_verified", 15)],
     base_score := 300, max_score := 900, scaling_config := none,
     source := "expert", ml_model_id := none, ml_auc := some (mkRat 6 10),
     ml_f1 := none, activated_at := some 0, retired_at := none,
     notes := .user "seed" }]

/-- C2 witness: the gate conclusions instantiated on a concrete one-active
registry and a concrete candidate. -/
theorem c2_promotion_gates_witness :
    c2Conclusion c2DemoState [("kyc_verified", 18)] (mkRat 9 10) (mkRat 8 10)
      none none 5 :=
  c2_promotion_gates c2DemoState [("kyc_verified", 18)] (mkRat 9 10)
    (mkRat 8 10) none none 5

/-! ## Claim C3 -/

/-- A registry holding a single active version numbered `"2.0"` and no row
numbered `"1.0"` — it satisfies the at-most-one-active invariant. -/
def c3BadState : RegistryState :=
  [{ version := "2.0", status := "active", weights := [],
     base_score := 300, max_score := 900, scaling_config := none,
     source := "expert", ml_model_id := none, ml_auc := none, ml_f1 := none,
     activated_at := some 0, retired_at := none, notes := .user "seed" }]

/-- C3 counterexample: `ensure_initial_version` checks only whether a row
with `version == '1.0'` exists; on a state whose single active version is
numbered `"2.0"` it inserts a *second* active row, breaking the invariant
the claim says every registry operation preserves. -/
theorem c3_counterexample_ensure_initial :
    atMostOneActive c3BadState ∧
      ¬ atMostOneActive (ensureInitialVersion c3BadState 0) := by
  constructor
  · decide
  · intro h
    have : countActive (ensureInitialVersion c3BadState 0) = 2 := by decide
    unfold atMostOneActive at h
    omega

/-- C3 amended: `create_version_from_ml` (both its failed and promoted
branches) preserves the at-most-one-active invariant from every state
satisfying it; `ensure_initial_version` preserves it from every state that
already has a `'1.0'` row or has no active version (which covers every
state reachable from an empty registry, where the first inserted row is
always numbered `'1.0'`). -/
theorem c3_at_most_one_active_preserved :
    (∀ st weights auc f1 mid notes now, atMostOneActive st →
      atMostOneActive (createVersionFromML st weights auc f1 mid notes now)) ∧
    (∀ st now, atMostOneActive st →
      (st.any (fun v => v.version == "1.0") = true ∨ countActive st = 0) →
      atMostOneActive (ensureInitialVersion st now)) := by
  constructor
  · intro st weights auc f1 mid notes now hinv
    have hinv2 : countActive st ≤ 1 := hinv
    have hfail : ∀ reason, atMostOneActive
        (st ++ [mkFailedVersion st weights auc f1 mid reason]) := by
      intro reason
      unfold atMostOneActive
      rw [countActive_append]
      have : countActive [mkFailedVersion st weights auc f1 mid reason] = 0 := by
        simp [countActive, mkFailedVersion]
      omega
    have hpromote : atMostOneActive (retireFirstActive now st ++
        [mkPromotedVersion st weights auc f1 mid notes now]) := by
      unfold atMostOneActive
      rw [countActive_append, countActive_retireFirstActive now st hinv]
      have : countActive [mkPromotedVersion st weights auc f1 mid notes now] = 1 := by
        simp [countActive, mkPromotedVersion]
      omega
    unfold createVersionFromML
    split
    · exact hfail _
    · split
      · split
        · split
          · exact hfail _
          · exact hpromote
        · exact hpromote
      · exact hpromote
  · intro st now hinv hside
    unfold ensureInitialVersion
    split
    · exact hinv
    · rename_i hno
      rcases hside with h10 | hzero
      · exact absurd h10 (by simpa using hno)
      · unfold atMostOneActive
        rw [countActive_append, hzero]
        have : countActive [initialVersionRow now] = 1 := by
          simp [countActive, initialVersionRow]
        omega

/-- C3 witness: the preserved invariant evaluated on a concrete promotion
from a one-active registry, and on seeding an empty registry. -/
theorem c3_at_most_one_active_preserved_witness :
    atMostOneActive (createVersionFromML c2DemoState [("kyc_verified", 18)]
      (mkRat 9 10) (mkRat 8 10) none none 5) ∧
    atMostOneActive (ensureInitialVersion [] 0) :=
  ⟨c3_at_most_one_active_preserved.1 c2DemoState [("kyc_verified", 18)]
      (mkRat 9 10) (mkRat 8 10) none none 5 (by decide),
   c3_at_most_one_active_preserved.2 [] 0 (by decide) (Or.inr (by decide))⟩

/-! ## Claim C4 -/

theorem countP_congrList {α : Type} (l : List α) (p q : α → Bool)
    (h : ∀ a ∈ l, p a = q a) : l.countP p = l.countP q := by
  induction l with
  | nil => rfl
  | cons x xs ih =>
    rw [List.countP_cons, List.countP_cons, h x (List.mem_cons_self x xs),
      ih (fun a ha => h a (List.mem_cons_of_mem x ha))]

/-- The current-row predicate of `countCurrent`. -/
def curP (pid : ℕ) (name : String) (r : FeatureRow) : Bool :=
  r.party_id == pid && r.feature_name == name && r.valid_to == none

theorem countCurrent_eq_countP (st : List FeatureRow) (pid : ℕ)
    (name : String) : countCurrent st pid name = st.countP (curP pid name) :=
  rfl

theorem curP_true_iff (pid : ℕ) (name : String) (r : FeatureRow) :
    curP pid name r = true ↔
      r.party_id = pid ∧ r.feature_name = name ∧ r.valid_to = none := by
  simp [curP, and_assoc]

theorem closedByStore_none_true_iff (party : ℕ) (r : FeatureRow) :
    closedByStore party none r = true ↔
      r.party_id = party ∧ r.valid_to = none := by
  simp [closedByStore]

theorem closedByStore_some_true_iff (party : ℕ) (srcs : List String)
    (r : FeatureRow) :
    closedByStore party (some srcs) r = true ↔
      r.party_id = party ∧ r.valid_to = none ∧ r.source_type ∈ srcs := by
  simp [closedByStore, and_assoc]

/-- C4 counterexample: a single `_store_features` call whose new-feature
list holds the *same* feature name twice inserts two current rows for that
`(entity, name)` pair, so the close-then-insert write does not preserve the
invariant from every state satisfying it. -/
theorem c4_counterexample_duplicate_name :
    atMostOneCurrent ([] : List FeatureRow) ∧
      ¬ atMostOneCurrent (storeFeatures [] 1
        [⟨"x", 1, 1, "KYC"⟩, ⟨"x", 1, 1, "KYC"⟩] none 0) := by
  constructor
  · intro pid name
    simp [countCurrent]
  · intro h
    have h2 := h 1 "x"
    have hval : countCurrent (storeFeatures [] 1
        [⟨"x", 1, 1, "KYC"⟩, ⟨"x", 1, 1, "KYC"⟩] none 0) 1 "x" = 2 := by
      decide
    omega

/-- C4 amended: the close-then-insert write preserves the invariant on every
call whose new features carry pairwise-distinct names and, when a
source-type filter is given, whose filter covers the source type of every
existing current record colliding with an inserted name.  (Without these
conditions the write can leave two current rows — see the counterexample.) -/
theorem c4_store_preserves_single_current (st : List FeatureRow) (party : ℕ)
    (feats : List NewFeature) (affected : Option (List String)) (now : ℕ)
    (hinv : atMostOneCurrent st)
    (hnodup : (feats.map (fun f => f.feature_name)).Nodup)
    (hfilter : ∀ srcs, affected = some srcs → ∀ r ∈ st, r.party_id = party →
      r.valid_to = none → r.feature_name ∈ feats.map (fun f => f.feature_name) →
      r.source_type ∈ srcs) :
    atMostOneCurrent (storeFeatures st party feats affected now) := by
  intro pid name
  rw [countCurrent_eq_countP, storeFeatures, List.countP_append]
  have hclosed : (st.map (fun r => if closedByStore party affected r then
      { r with valid_to := some now } else r)).countP (curP pid name) =
      st.countP (fun r => curP pid name r && !(closedByStore party affected r)) := by
    rw [List.countP_map]
    apply countP_congrList
    intro r _
    by_cases hc : closedByStore party affected r
    · simp [Function.comp, hc, curP]
    · simp [Function.comp, hc]
  rw [hclosed]
  have hinserted : (feats.map (fun f =>
      ({ party_id := party, feature_name := f.feature_name,
         feature_value := f.feature_value, confidence := f.confidence,
         source_type := f.source_type, valid_from := now,
         valid_to := none } : FeatureRow))).countP (curP pid name) =
      if party = pid then feats.countP (fun f => f.feature_name == name)
      else 0 := by
    rw [List.countP_map]
    by_cases hp : party = pid
    · rw [if_pos hp]
      apply countP_congrList
      intro f _
      simp [Function.comp, curP, hp]
    · rw [if_neg hp]
      apply List.countP_eq_zero.mpr
      intro f _
      simp [Function.comp, curP, hp]
  rw [hinserted]
  have hnamecount : feats.countP (fun f => f.feature_name == name) ≤ 1 := by
    have hmapped : feats.countP (fun f => f.feature_name == name) =
        (feats.map (fun f => f.feature_name)).countP (fun s => s == name) := by
      rw [List.countP_map]
      rfl
    rw [hmapped,
      show (feats.map (fun f => f.feature_name)).countP (fun s => s == name) =
        (feats.map (fun f => f.feature_name)).count name from rfl]
    exact List.nodup_iff_count_le_one.mp hnodup name
  have hle : st.countP (fun r => curP pid name r &&
      !(closedByStore party affected r)) ≤ st.countP (curP pid name) := by
    apply List.countP_mono_left
    intro r _ hr
    exact ((Bool.and_eq_true _ _).mp hr).1
  have hinvP := hinv pid name
  rw [countCurrent_eq_countP] at hinvP
  by_cases hp : party = pid
  · rw [if_pos hp]
    subst hp
    rcases affected with _ | srcs
    · have hzero : st.countP (fun r => curP party name r &&
          !(closedByStore party none r)) = 0 := by
        apply List.countP_eq_zero.mpr
        intro r _
        rw [Bool.and_eq_true]
        rintro ⟨hcur, hcl⟩
        rw [curP_true_iff] at hcur
        rw [(closedByStore_none_true_iff party r).mpr ⟨hcur.1, hcur.2.2⟩] at hcl
        simp at hcl
      rw [hzero]
      omega
    · by_cases hname : name ∈ feats.map (fun f => f.feature_name)
      · have hzero : st.countP (fun r => curP party name r &&
            !(closedByStore party (some srcs) r)) = 0 := by
          apply List.countP_eq_zero.mpr
          intro r hr
          rw [Bool.and_eq_true]
          rintro ⟨hcur, hcl⟩
          rw [curP_true_iff] at hcur
          have hsrc : r.source_type ∈ srcs := by
            apply hfilter srcs rfl r hr hcur.1 hcur.2.2
            rw [hcur.2.1]
            exact hname
          rw [(closedByStore_some_true_iff party srcs r).mpr ⟨hcur.1, hcur.2.2, hsrc⟩] at hcl
          simp at hcl
        rw [hzero]
        omega
      · have hzero2 : feats.countP (fun f => f.feature_name == name) = 0 := by
          apply List.countP_eq_zero.mpr
          intro f hf
          simp only [beq_iff_eq]
          intro heq
          exact hname (List.mem_map.mpr ⟨f, hf, heq⟩)
        rw [hzero2]
        omega
  · rw [if_neg hp]
    omega

/-- C4 witness: the preserved invariant evaluated at a concrete unfiltered
write of two distinct features over a one-row store. -/
theorem c4_store_preserves_single_current_witness :
    countCurrent (storeFeatures
      [⟨1, "kyc_verified", 1, 1, "KYC", 0, none⟩] 1
      [⟨"kyc_verified", 0, 1, "KYC"⟩, ⟨"has_tax_id", 1, 1, "KYC"⟩] none 3)
      1 "kyc_verified" ≤ 1 :=
  c4_store_preserves_single_current
    [⟨1, "kyc_verified", 1, 1, "KYC", 0, none⟩] 1
    [⟨"kyc_verified", 0, 1, "KYC"⟩, ⟨"has_tax_id", 1, 1, "KYC"⟩] none 3
    (by intro pid name
        have : countCurrent [⟨1, "kyc_verified", 1, 1, "KYC", 0, none⟩]
            pid name ≤ countCurrent [⟨1, "kyc_verified", 1, 1, "KYC", 0, none⟩]
            pid name := le_refl _
        simp only [countCurrent, List.countP_cons, List.countP_nil]
        split <;> omega)
    (by decide)
    (fun srcs h => by cases h)
    1 "kyc_verified"

/-! ## Claim C5 -/

theorem kycExtract_restrict (db : SourceDb) (t : ℤ) (pid : ℕ) (now : ℤ)
    (asOf : Option ℤ) :
    kycExtract (restrictDb db t) pid now asOf = kycExtract db pid now asOf :=
  rfl

theorem txnWindow_restrict (db : SourceDb) (pid : ℕ) (t six : ℤ) :
    (restrictDb db t).transactions.filter (fun x =>
      x.party_id == pid && decide (six ≤ x.transaction_date) &&
        decide (x.transaction_date ≤ t)) =
    db.transactions.filter (fun x =>
      x.party_id == pid && decide (six ≤ x.transaction_date) &&
        decide (x.transaction_date ≤ t)) := by
  show (db.transactions.filter _).filter _ = _
  rw [List.filter_filter]
  apply List.filter_congr
  intro x _
  cases hd : decide (x.transaction_date ≤ t) <;> simp [hd]

theorem transactionExtract_restrict (env : ExtractorEnv) (db : SourceDb)
    (pid : ℕ) (now t : ℤ) :
    transactionExtract env (restrictDb db t) pid now (some t) =
      transactionExtract env db pid now (some t) := by
  unfold transactionExtract
  simp only [Option.getD_some]
  simp only [txnWindow_restrict]

theorem networkExtract_restrict (db : SourceDb) (pid : ℕ) (now t : ℤ) :
    networkExtract (restrictDb db t) pid now (some t) =
      networkExtract db pid now (some t) := by
  unfold networkExtract
  simp only [Option.getD_some]
  have hcount : ∀ side : RelationshipRow → Bool,
      ((restrictDb db t).relationships).countP (fun r =>
        side r && decide (r.established_date ≤ t)) =
      db.relationships.countP (fun r =>
        side r && decide (r.established_date ≤ t)) := by
    intro side
    show (db.relationships.filter _).countP _ = _
    rw [List.countP_filter]
    apply countP_congrList
    intro r _
    cases hd : decide (r.established_date ≤ t) <;> simp [hd]
  rw [hcount (fun r => r.from_party_id == pid),
    hcount (fun r => r.to_party_id == pid)]

/-- C5: point-in-time extraction is leakage-free.  First conjunct: removing
every transaction and relationship dated after `t` does not change the
features extracted with `as_of_date = t` — so no record dated after `t`
influences any returned value.  Second conjunct: `build_matrix` builds each
party's row by extracting with `as_of_date = label.created_at`, hence every
row equals the row computed from the database restricted to records dated at
or before that party's label date. -/
theorem c5_point_in_time_extraction :
    (∀ (env : ExtractorEnv) (db : SourceDb) (pid : ℕ) (now t : ℤ),
      extractAllFeatures env (restrictDb db t) pid now (some t) =
        extractAllFeatures env db pid now (some t)) ∧
    (∀ (env : ExtractorEnv) (db : SourceDb) (batch : String) (now : ℤ),
      buildMatrix env db batch now =
        (db.parties.filter (fun p => p.batch_id == batch)).filterMap (fun p =>
          (db.labels.find? (fun l => l.party_id == p.id)).map (fun l =>
            mkMatrixRow env (restrictDb db l.created_at) p l now))) := by
  have hall : ∀ (env : ExtractorEnv) (db : SourceDb) (pid : ℕ) (now t : ℤ),
      extractAllFeatures env (restrictDb db t) pid now (some t) =
        extractAllFeatures env db pid now (some t) := by
    intro env db pid now t
    unfold extractAllFeatures
    rw [kycExtract_restrict, transactionExtract_restrict,
      networkExtract_restrict]
  refine ⟨hall, ?_⟩
  intro env db batch now
  unfold buildMatrix
  apply List.filterMap_congr
  intro p _
  cases hfind : db.labels.find? (fun l => l.party_id == p.id) with
  | none => rfl
  | some l =>
    simp only [Option.map_some']
    have hrow : mkMatrixRow env (restrictDb db l.created_at) p l now =
        mkMatrixRow env db p l now := by
      unfold mkMatrixRow
      rw [hall env db p.id now l.created_at]
    rw [hrow]

/-! ## Claim C9 -/

/-- C9: the conversion never flips a coefficient's sign: whenever position
`i` of the produced weight dict holds weight `w` for coefficient `c`, either
`w` has the sign of `c` or `w = 0`. -/
theorem c9_sign_preservation (coeffs : List ℚ) (names : List String)
    (intercept : ℚ) (i : ℕ) (n : String) (w : ℤ) (c : ℚ)
    (hw : (convertToScorecard coeffs names intercept 100).weights.get? i =
      some (n, w))
    (hc : coeffs.get? i = some c) :
    (0 < c → 0 ≤ w) ∧ (c < 0 → w ≤ 0) ∧ (c = 0 → w = 0) := by
  by_cases h : absSum coeffs = 0
  · have hzero : w = 0 := by
      simp only [convertToScorecard, if_pos h, List.get?_map,
        Option.map_eq_some'] at hw
      obtain ⟨a, _, hfa⟩ := hw
      have := congrArg Prod.snd hfa
      simpa using this.symm
    exact ⟨fun _ => by simp [hzero], fun _ => by simp [hzero],
      fun _ => hzero⟩
  · have hpos : 0 < absSum coeffs := by
      have hnn : 0 ≤ absSum coeffs := by
        apply List.sum_nonneg
        intro x hx
        simp only [List.mem_map] at hx
        obtain ⟨y, _, hy⟩ := hx
        rw [← hy]; exact abs_nonneg y
      exact lt_of_le_of_ne hnn (Ne.symm h)
    have hweq : w = coefPoints coeffs 100 c := by
      simp only [convertToScorecard, if_neg h] at hw
      rw [List.get?_zip_eq_some] at hw
      have h2 := hw.2
      rw [List.get?_map, hc] at h2
      simpa using h2.symm
    have hdiv : ∀ hq : ℚ, 0 < hq → 0 < hq / absSum coeffs * (100 : ℚ) := by
      intro q hq
      positivity
    refine ⟨?_, ?_, ?_⟩
    · intro hcpos
      rw [hweq]
      exact ratTrunc_nonneg (le_of_lt (by
        simpa [coefPoints] using hdiv c hcpos))
    · intro hcneg
      rw [hweq]
      apply ratTrunc_nonpos
      have : c / absSum coeffs * (100 : ℚ) < 0 := by
        apply mul_neg_of_neg_of_pos
        · exact div_neg_of_neg_of_pos hcneg hpos
        · norm_num
      exact le_of_lt this
    · intro hcz
      rw [hweq, hcz]
      simp [coefPoints, ratTrunc_zero]

/-- C9 witness: sign preservation evaluated on `[2, -3]`: the negative
coefficient converts to weight −60, the positive one stays nonnegative. -/
theorem c9_sign_preservation_witness :
    (0 < (-3 : ℚ) → 0 ≤ (-60 : ℤ)) ∧ ((-3 : ℚ) < 0 → (-60 : ℤ) ≤ 0) ∧
      ((-3 : ℚ) = 0 → (-60 : ℤ) = 0) :=
  c9_sign_preservation [2, -3] ["a", "b"] 0 1 "b" (-60) (-3)
    (by with_unfolding_all decide) (by with_unfolding_all decide)

end KYCC
